import Mathlib

/-!
Verification development for the trafsys-data-transfer script (`script.js`).

The script pulls hourly traffic records from a remote REST API and upserts
them into an Oracle table keyed on (SiteCode, Location, PeriodEnding).
We give a shallow embedding of its data model and control flow:

* The upsert engine (`insertData`, lines 177-210 of `script.js`) is modelled
  as a pure function on a list of rows; the PL/SQL block's
  insert-then-catch-then-update behaviour becomes `upsertOne`.
* The run orchestration (`run`, lines 223-263) is modelled as a function
  from a `World` (the outcomes of the external calls: environment variables,
  stored previous run, clock, authentication and fetch results) to a
  `RunResult` holding the trace of observable events, the final outcome,
  the final table, and the run-state entries appended.
* Timestamps are integer milliseconds; the `node-datetime` offset
  `offsetInHours(-1/12)` at line 41 is exactly -300000 ms.
-/

namespace Trafsys

/-- A TrafSys data record, as inserted into ULS_TRAFSYS_DATA
(fields from the bindDefs at script.js lines 200-207; IsInternal is a
0/1 number, PeriodEnding the YYYY-MM-DDTHH24:MI:SS string bound via TO_DATE). -/
structure DataRecord where
  SiteCode : String
  Location : String
  IsInternal : Int
  PeriodEnding : String
  Ins : Int
  Outs : Int
deriving DecidableEq, Repr

/-- Two records conflict on the table's primary key
(SiteCode, Location, PeriodEnding) — script.js line 119. -/
def sameKey (row r : DataRecord) : Bool :=
  row.SiteCode == r.SiteCode && row.Location == r.Location &&
    row.PeriodEnding == r.PeriodEnding

/-- The update arm of the PL/SQL block: `set Ins = :Ins, Outs = :Outs`
(script.js lines 191-192). -/
def setCounts (row r : DataRecord) : DataRecord :=
  { row with Ins := r.Ins, Outs := r.Outs }

/-- Effect of one record's update statement on one stored row: the
`where` clause (lines 193-195) selects rows with the same key. -/
def applyRec (r row : DataRecord) : DataRecord :=
  if sameKey row r then setCounts row r else row

/-- Whether the table already holds a row with `r`'s primary key —
this is what raises `dup_val_on_index` on insert. -/
def hasKey (table : List DataRecord) (r : DataRecord) : Bool :=
  table.any (fun row => sameKey row r)

/-- One iteration of the executeMany PL/SQL block (script.js lines 180-196):
try the insert; on a duplicate key, update Ins/Outs of the conflicting row. -/
def upsertOne (table : List DataRecord) (r : DataRecord) : List DataRecord :=
  if hasKey table r then table.map (applyRec r) else table ++ [r]

/-- The whole executeMany batch, applied to the records in array order. -/
def applyBatch (table data : List DataRecord) : List DataRecord :=
  data.foldl upsertOne table

/-- `insertData` (script.js lines 177-210): early return on an empty batch,
otherwise run the executeMany batch. -/
def insertData (table data : List DataRecord) : List DataRecord :=
  if data.isEmpty then table else applyBatch table data

/-- Folding all of a batch's updates over a single row (used to analyse
what a second pass of the batch does to an already-upserted row). -/
def applyAll (data : List DataRecord) (row : DataRecord) : DataRecord :=
  data.foldl (fun row r => applyRec r row) row

/-- The RunInfo object built by `getRunInfo` and stored in logs.db
(script.js lines 15-23). Times are integer milliseconds. `Records` is
set only after a successful fetch (line 159). -/
structure RunInfo where
  AccessToken : String
  AccessTokenExpiresAt : Int
  FromDate : String
  ToDate : String
  Records : Option Nat
deriving DecidableEq, Repr

/-- The token endpoint's response: access_token plus the parsed ".expires"
timestamp (script.js lines 49-51). -/
structure TokenData where
  access_token : String
  expiresAt : Int
deriving DecidableEq, Repr

/-- An error raised by an axios call, as inspected at script.js line 239:
`isAxiosError`, whether `e.response` exists, and its HTTP status.
A network failure has `isAxiosError = true` and no response object. -/
structure AxiosError where
  isAxiosError : Bool
  hasResponse : Bool
  status : Nat
deriving DecidableEq, Repr

/-- A database or run-state store failure (an oracledb or nedb error
object); only its message matters to the model. -/
structure DbFailure where
  message : String
deriving DecidableEq, Repr

/-- A JavaScript error reaching `run`'s outer catch: an error thrown by an
axios call, the TypeError raised by reading `e.response.status` when
`e.response` is undefined (script.js line 239), or a database / store
error thrown by oracledb or nedb. -/
inductive JsError where
  | raised (e : AxiosError)
  | typeError
  | dbError (e : DbFailure)
deriving DecidableEq, Repr

/-- The environment of one run: the process environment, the stored previous
RunInfo (most recent logs.db entry), the clock, the CLI overrides, yesterday's
date string, and the outcomes the external endpoints would give to the
first/second authentication call and the first/second fetch call. -/
structure World where
  env : List (String × String)
  prev : Option RunInfo
  nowMs : Int
  optFrom : Option String
  optTo : Option String
  yesterday : String
  auth1 : Except AxiosError TokenData
  auth2 : Except AxiosError TokenData
  fetch1 : Except AxiosError (List DataRecord)
  fetch2 : Except AxiosError (List DataRecord)
  table : List DataRecord
deriving Repr

/-- The five-minute offset applied to "now" at script.js line 41
(`offsetInHours(-1/12)`), in milliseconds. -/
def fiveMinutesMs : Int := 300000

/-- The token reuse test of script.js lines 38-43: the stored expiry is
compared against now offset by MINUS five minutes, so the test is
`expiresAt > now - 5 minutes`. -/
def tokenCheck (expiresAt now : Int) : Bool :=
  expiresAt > now - fiveMinutesMs

/-- The token (value, expiry) copied from the previous run when the
expiry check passes (script.js lines 37-47). -/
def reusedToken (w : World) : Option (String × Int) :=
  match w.prev with
  | some p =>
      if tokenCheck p.AccessTokenExpiresAt w.nowMs then
        some (p.AccessToken, p.AccessTokenExpiresAt)
      else none
  | none => none

/-- The `if (!currentRun.AccessToken)` test at script.js line 48: a fresh
token is requested when nothing was reused, or when the reused token is
the empty string (falsy). -/
def needFresh (w : World) : Bool :=
  match reusedToken w with
  | some (a, _) => a == ""
  | none => true

/-- Observable events of one run, in order. -/
inductive Event where
  | checkEnvFail (missing : List String)
  | connect
  | ensureTable
  | authCall
  | fetchCall (fromDate toDate token : String)
  | wait1s
  | reauthCall
  | dbExecuteMany (n : Nat)
  | appendRunState (r : RunInfo)
  | logError (e : JsError)
  | closeConnection
deriving DecidableEq, Repr

/-- Token resolution inside `getRunInfo` (script.js lines 37-52): reuse the
previous token when present and non-falsy, otherwise call `getAccessToken`
(an `authCall` event) and use its result; a token-endpoint error propagates. -/
def tokenStep (w : World) : List Event × Except AxiosError (String × Int) :=
  match reusedToken w with
  | some (a, x) =>
      if a == "" then
        match w.auth1 with
        | .error e => ([Event.authCall], .error e)
        | .ok t => ([Event.authCall], .ok (t.access_token, t.expiresAt))
      else ([], .ok (a, x))
  | none =>
      match w.auth1 with
      | .error e => ([Event.authCall], .error e)
      | .ok t => ([Event.authCall], .ok (t.access_token, t.expiresAt))

/-- The effective From date (script.js lines 53-58): the `--from` option if
given, else the previous run's ToDate if a previous run exists and its
ToDate is truthy (`previousRun?.ToDate || yesterday`), else yesterday. -/
def effFrom (w : World) : String :=
  match w.optFrom with
  | some f => f
  | none =>
      match w.prev with
      | some p => if p.ToDate == "" then w.yesterday else p.ToDate
      | none => w.yesterday

/-- The effective To date (script.js lines 55, 59): the `--to` option if
given, else yesterday. -/
def effTo (w : World) : String :=
  match w.optTo with
  | some t => t
  | none => w.yesterday

/-- The RunInfo assembled by `getRunInfo` for the current run
(Records not yet set). -/
def mkRunInfo (w : World) (tok : String) (expiry : Int) : RunInfo :=
  { AccessToken := tok, AccessTokenExpiresAt := expiry,
    FromDate := effFrom w, ToDate := effTo w, Records := none }

/-- The five environment variables required by `checkEnv`
(script.js lines 86-92). -/
def requiredKeys : List String :=
  ["ORACLE_USER", "ORACLE_PASSWORD", "ORACLE_CONNECTION_STRING",
   "TRAFSYS_USER", "TRAFSYS_PASSWORD"]

/-- `key in process.env`: the key is bound, whatever its value. -/
def envHasKey (env : List (String × String)) (key : String) : Bool :=
  env.any (fun kv => kv.1 == key)

/-- `keys.filter(key => !(key in process.env))` (script.js line 93):
only presence of the key is tested, never the value. -/
def missingKeys (env : List (String × String)) : List String :=
  requiredKeys.filter (fun key => !(envHasKey env key))

/-- What the catch handler at script.js lines 238-248 decides for a fetch
error: retry on `e.isAxiosError && e.response.status == 401`; rethrow the
original error otherwise; but reading `e.response.status` when `e.response`
is undefined raises a TypeError instead. -/
inductive HandlerOutcome where
  | retry
  | rethrowOriginal
  | raiseTypeError
deriving DecidableEq, Repr

/-- Evaluation of `e.isAxiosError && e.response.status == 401` with
JavaScript semantics: `&&` short-circuits, and member access on an
undefined `e.response` throws a TypeError. -/
def handle401 (e : AxiosError) : HandlerOutcome :=
  if e.isAxiosError then
    if e.hasResponse then
      if e.status == 401 then HandlerOutcome.retry
      else HandlerOutcome.rethrowOriginal
    else HandlerOutcome.raiseTypeError
  else HandlerOutcome.rethrowOriginal

/-- The fetch phase of `run` (script.js lines 234-249): first
`getTrafsysData` call; on an error classified as a 401, wait one second,
re-authenticate, and retry the fetch exactly once with the new token and
the unchanged date range; any other first error, and any second error,
propagates to the outer catch. -/
def fetchPhase (w : World) (info : RunInfo) :
    List Event × Except JsError (RunInfo × List DataRecord) :=
  let ev1 := Event.fetchCall info.FromDate info.ToDate info.AccessToken
  match w.fetch1 with
  | .ok data => ([ev1], .ok (info, data))
  | .error e =>
    match handle401 e with
    | .rethrowOriginal => ([ev1], .error (JsError.raised e))
    | .raiseTypeError => ([ev1], .error JsError.typeError)
    | .retry =>
      match w.auth2 with
      | .error e2 =>
          ([ev1, Event.wait1s, Event.reauthCall], .error (JsError.raised e2))
      | .ok t2 =>
        let info2 := { info with AccessToken := t2.access_token,
                                 AccessTokenExpiresAt := t2.expiresAt }
        let ev2 := Event.fetchCall info2.FromDate info2.ToDate info2.AccessToken
        match w.fetch2 with
        | .ok data =>
            ([ev1, Event.wait1s, Event.reauthCall, ev2], .ok (info2, data))
        | .error e2 =>
            ([ev1, Event.wait1s, Event.reauthCall, ev2],
             .error (JsError.raised e2))

/-- How one run ends: success; a caught error logged by the outer catch
(script.js lines 253-255) followed by a normal process end; or the
`process.exit()` call of `checkEnv` (script.js line 96). -/
inductive Outcome where
  | success
  | failure (e : JsError)
  | envExit (missing : List String)
deriving DecidableEq, Repr

/-- The process exit code for each outcome. `process.exit()` with no
argument exits with code 0, and `run`'s catch swallows the error so the
process also ends normally (code 0) after a failure. -/
def exitCode : Outcome → Nat
  | Outcome.success => 0
  | Outcome.failure _ => 0
  | Outcome.envExit _ => 0

/-- Everything observable about one run. -/
structure RunResult where
  trace : List Event
  outcome : Outcome
  table : List DataRecord
  appended : List RunInfo
deriving DecidableEq, Repr

/-- The whole of `run` (script.js lines 223-263) over a `World`:
checkEnv, connect, ensureTableExists, getRunInfo, the fetch phase with its
single 401 retry, insertData, and the final `logsDb.insert(runInfo)`.
A RunInfo is appended only on the all-success path. -/
def runModel (w : World) : RunResult :=
  if (missingKeys w.env).isEmpty then
    match tokenStep w with
    | (evs, .error e) =>
        { trace := [Event.connect, Event.ensureTable] ++ evs ++
                     [Event.logError (JsError.raised e), Event.closeConnection],
          outcome := Outcome.failure (JsError.raised e),
          table := w.table, appended := [] }
    | (evs, .ok (tok, expiry)) =>
        match fetchPhase w (mkRunInfo w tok expiry) with
        | (fevs, .error e) =>
            { trace := [Event.connect, Event.ensureTable] ++ evs ++ fevs ++
                         [Event.logError e, Event.closeConnection],
              outcome := Outcome.failure e, table := w.table, appended := [] }
        | (fevs, .ok (info2, data)) =>
            { trace := [Event.connect, Event.ensureTable] ++ evs ++ fevs ++
                 (if data.isEmpty then [] else [Event.dbExecuteMany data.length]) ++
                 [Event.appendRunState { info2 with Records := some data.length },
                  Event.closeConnection],
              outcome := Outcome.success,
              table := insertData w.table data,
              appended := [{ info2 with Records := some data.length }] }
  else
    { trace := [Event.checkEnvFail (missingKeys w.env)],
      outcome := Outcome.envExit (missingKeys w.env),
      table := w.table, appended := [] }

/-- The environment of one run for the full model of `run`: like `World`,
but every external collaborator is fallible — the database connection
(script.js line 227), the table DDL (line 232), the logs.db read
(line 35), the executeMany batch (line 179), and the logs.db append
(line 251) each carry their own outcome. The stored previous run is the
result of the (fallible) store read. -/
structure WorldX where
  env : List (String × String)
  connectResult : Except DbFailure Unit
  ensureTableResult : Except DbFailure Unit
  storeReadResult : Except DbFailure (Option RunInfo)
  nowMs : Int
  optFrom : Option String
  optTo : Option String
  yesterday : String
  auth1 : Except AxiosError TokenData
  auth2 : Except AxiosError TokenData
  fetch1 : Except AxiosError (List DataRecord)
  fetch2 : Except AxiosError (List DataRecord)
  executeManyResult : Except DbFailure Unit
  insertLogResult : Except DbFailure Unit
  table : List DataRecord
deriving Repr

/-- The restricted world seen by the token step and the fetch phase once
the store read has produced `prev`. -/
def WorldX.toWorld (w : WorldX) (prev : Option RunInfo) : World :=
  { env := w.env, prev := prev, nowMs := w.nowMs, optFrom := w.optFrom,
    optTo := w.optTo, yesterday := w.yesterday, auth1 := w.auth1,
    auth2 := w.auth2, fetch1 := w.fetch1, fetch2 := w.fetch2,
    table := w.table }

/-- The whole of `run` (script.js lines 223-263) with every failure path
modelled. checkEnv exits via `process.exit()` (line 96). If getConnection
throws, `connection` stays undefined, so the finally block does not close
it and the outer catch logs the error. ensureTableExists, the logs.db
read inside getRunInfo, the token resolution, the fetch phase (with its
single 401 retry), and insertData's executeMany each throw to the outer
catch, which logs and lets the process end normally. The final
`logsDb.insert(runInfo)` (line 251) is invoked WITHOUT a callback, so a
store append failure is silently swallowed: the run still ends as a
success, nothing is reported, and no entry is committed. -/
def runModelX (w : WorldX) : RunResult :=
  if (missingKeys w.env).isEmpty then
    match w.connectResult with
    | .error e =>
        { trace := [Event.connect, Event.logError (JsError.dbError e)],
          outcome := Outcome.failure (JsError.dbError e),
          table := w.table, appended := [] }
    | .ok _ =>
      match w.ensureTableResult with
      | .error e =>
          { trace := [Event.connect, Event.ensureTable,
                      Event.logError (JsError.dbError e), Event.closeConnection],
            outcome := Outcome.failure (JsError.dbError e),
            table := w.table, appended := [] }
      | .ok _ =>
        match w.storeReadResult with
        | .error e =>
            { trace := [Event.connect, Event.ensureTable,
                        Event.logError (JsError.dbError e), Event.closeConnection],
              outcome := Outcome.failure (JsError.dbError e),
              table := w.table, appended := [] }
        | .ok prev =>
          match tokenStep (w.toWorld prev) with
          | (evs, .error e) =>
              { trace := [Event.connect, Event.ensureTable] ++ evs ++
                           [Event.logError (JsError.raised e), Event.closeConnection],
                outcome := Outcome.failure (JsError.raised e),
                table := w.table, appended := [] }
          | (evs, .ok (tok, expiry)) =>
            match fetchPhase (w.toWorld prev) (mkRunInfo (w.toWorld prev) tok expiry) with
            | (fevs, .error e) =>
                { trace := [Event.connect, Event.ensureTable] ++ evs ++ fevs ++
                             [Event.logError e, Event.closeConnection],
                  outcome := Outcome.failure e, table := w.table, appended := [] }
            | (fevs, .ok (info2, data)) =>
              if data.isEmpty then
                { trace := [Event.connect, Event.ensureTable] ++ evs ++ fevs ++
                     [Event.appendRunState { info2 with Records := some data.length },
                      Event.closeConnection],
                  outcome := Outcome.success, table := w.table,
                  appended :=
                    match w.insertLogResult with
                    | .ok _ => [{ info2 with Records := some data.length }]
                    | .error _ => [] }
              else
                match w.executeManyResult with
                | .error e =>
                    { trace := [Event.connect, Event.ensureTable] ++ evs ++ fevs ++
                         [Event.dbExecuteMany data.length,
                          Event.logError (JsError.dbError e), Event.closeConnection],
                      outcome := Outcome.failure (JsError.dbError e),
                      table := w.table, appended := [] }
                | .ok _ =>
                    { trace := [Event.connect, Event.ensureTable] ++ evs ++ fevs ++
                         [Event.dbExecuteMany data.length,
                          Event.appendRunState { info2 with Records := some data.length },
                          Event.closeConnection],
                      outcome := Outcome.success,
                      table := insertData w.table data,
                      appended :=
                        match w.insertLogResult with
                        | .ok _ => [{ info2 with Records := some data.length }]
                        | .error _ => [] }
  else
    { trace := [Event.checkEnvFail (missingKeys w.env)],
      outcome := Outcome.envExit (missingKeys w.env),
      table := w.table, appended := [] }

/-- Fold step choosing the entry with the larger createdAt. -/
def newerRun (best cand : RunInfo × Int) : RunInfo × Int :=
  if cand.2 > best.2 then cand else best

/-- The logs.db query `findOne({}).sort(createdAt descending).limit(1)`
(script.js line 35): the stored entry with the greatest createdAt, or
none when the store is empty. Entries are (RunInfo, createdAt). -/
def mostRecentRun (store : List (RunInfo × Int)) : Option RunInfo :=
  match store with
  | [] => none
  | e :: rest => some ((rest.foldl newerRun e).1)

/-- A trace respects the rate-limit pause when every re-authentication
event is immediately preceded by the one-second wait. -/
def reauthPaused : List Event → Bool
  | [] => true
  | Event.wait1s :: Event.reauthCall :: rest => reauthPaused rest
  | Event.reauthCall :: _ => false
  | _ :: rest => reauthPaused rest

/-- Projection of a trace event to the date range of a fetch call. -/
def fetchDates : Event → Option (String × String)
  | Event.fetchCall f t _ => some (f, t)
  | _ => none

/-- Whether an event is a database write operation. -/
def isDbOp : Event → Bool
  | Event.dbExecuteMany _ => true
  | _ => false

/-- Whether an event reports an error to the operator (stderr). -/
def errorReported : Event → Bool
  | Event.checkEnvFail _ => true
  | Event.logError _ => true
  | _ => false

/-! Concrete inputs used to instantiate the theorems below. -/

/-- A complete environment with ordinary values. -/
def envAll : List (String × String) :=
  [("ORACLE_USER", "u"), ("ORACLE_PASSWORD", "p"),
   ("ORACLE_CONNECTION_STRING", "c"), ("TRAFSYS_USER", "tu"),
   ("TRAFSYS_PASSWORD", "tp")]

/-- A complete environment in which every required variable is bound to
the empty string. -/
def envBlank : List (String × String) :=
  [("ORACLE_USER", ""), ("ORACLE_PASSWORD", ""),
   ("ORACLE_CONNECTION_STRING", ""), ("TRAFSYS_USER", ""),
   ("TRAFSYS_PASSWORD", "")]

/-- An environment missing TRAFSYS_PASSWORD. -/
def envMissing : List (String × String) :=
  [("ORACLE_USER", "u"), ("ORACLE_PASSWORD", "p"),
   ("ORACLE_CONNECTION_STRING", "c"), ("TRAFSYS_USER", "tu")]

/-- An axios 401 response error. -/
def err401 : AxiosError := { isAxiosError := true, hasResponse := true, status := 401 }

/-- An axios 500 response error. -/
def err500 : AxiosError := { isAxiosError := true, hasResponse := true, status := 500 }

/-- An axios network failure: `isAxiosError` is true but there is no
HTTP response object at all. -/
def netErr : AxiosError := { isAxiosError := true, hasResponse := false, status := 0 }

/-- A fresh token as returned by the token endpoint. -/
def tokA : TokenData := { access_token := "freshtok", expiresAt := 7200000 }

/-- A second fresh token, for the re-authentication path. -/
def tokB : TokenData := { access_token := "retrytok", expiresAt := 7500000 }

/-- A stored previous run whose token expires 10 minutes after time 0. -/
def prev10 : RunInfo :=
  { AccessToken := "prevtok", AccessTokenExpiresAt := 600000,
    FromDate := "2020-01-01", ToDate := "2020-01-05", Records := some 3 }

/-- A stored previous run whose token expires only 2 minutes after time 0. -/
def prev2 : RunInfo :=
  { AccessToken := "prevtok", AccessTokenExpiresAt := 120000,
    FromDate := "2020-01-01", ToDate := "2020-01-05", Records := some 3 }

/-- A baseline world: full environment, no previous run, clock at 0,
no CLI overrides, both endpoints healthy, empty table. -/
def baseWorld : World :=
  { env := envAll, prev := none, nowMs := 0, optFrom := none, optTo := none,
    yesterday := "2020-01-06",
    auth1 := Except.ok tokA, auth2 := Except.ok tokB,
    fetch1 := Except.ok [], fetch2 := Except.ok [], table := [] }

/-- World for the token-reuse counterexample: previous token expires in
2 minutes. -/
def wReuse2 : World := { baseWorld with prev := some prev2 }

/-- World for the token-reuse witness: previous token expires in
10 minutes. -/
def wReuse10 : World := { baseWorld with prev := some prev10 }

/-- World in which the first fetch gets a 401 and the retried fetch gets
a 500. -/
def wTwoFails : World :=
  { baseWorld with fetch1 := Except.error err401, fetch2 := Except.error err500 }

/-- World in which the first fetch fails with an axios error that has no
response object (a network failure). -/
def wNetFail : World := { baseWorld with fetch1 := Except.error netErr }

/-- Baseline extended world: full environment, every external operation
succeeds, no previous run, empty fetch. -/
def baseWorldX : WorldX :=
  { env := envAll, connectResult := Except.ok (),
    ensureTableResult := Except.ok (), storeReadResult := Except.ok none,
    nowMs := 0, optFrom := none, optTo := none, yesterday := "2020-01-06",
    auth1 := Except.ok tokA, auth2 := Except.ok tokB,
    fetch1 := Except.ok [], fetch2 := Except.ok [],
    executeManyResult := Except.ok (), insertLogResult := Except.ok (),
    table := [] }

/-- Extended world with a missing required environment variable. -/
def wNoEnvX : WorldX := { baseWorldX with env := envMissing }

/-- Extended world whose run-state append (`logsDb.insert`, line 251)
fails; the error is swallowed because no callback is passed. -/
def wSwallowX : WorldX :=
  { baseWorldX with
      insertLogResult := Except.error { message := "nedb append failed" } }

/-- World with every required environment variable bound to the empty
string. -/
def wBlankEnv : World := { baseWorld with env := envBlank }

/-- A second stored run, older than `prev10`. -/
def prevOld : RunInfo :=
  { AccessToken := "oldtok", AccessTokenExpiresAt := 1000,
    FromDate := "2019-12-30", ToDate := "2020-01-01", Records := some 7 }

/-- A store holding two runs; `prev10` has the greater createdAt. -/
def store2 : List (RunInfo × Int) := [(prevOld, 5), (prev10, 9)]

/-- World whose previous run is the most recent entry of `store2`. -/
def wStore : World := { baseWorld with prev := some prev10 }

/-- A stored row of ULS_TRAFSYS_DATA. -/
def rowA : DataRecord :=
  { SiteCode := "HL", Location := "Main", IsInternal := 0,
    PeriodEnding := "2020-01-05T13:00:00", Ins := 10, Outs := 12 }

/-- A freshly fetched record with the same key as `rowA` but different
counts and a different IsInternal flag. -/
def recA : DataRecord :=
  { SiteCode := "HL", Location := "Main", IsInternal := 1,
    PeriodEnding := "2020-01-05T13:00:00", Ins := 20, Outs := 21 }

/-! Basic facts about primary keys and single-record upserts. -/

theorem sameKey_refl (a : DataRecord) : sameKey a a = true := by
  simp [sameKey]

theorem sameKey_setCounts (row s r : DataRecord) :
    sameKey (setCounts row s) r = sameKey row r := rfl

theorem setCounts_setCounts (row s q : DataRecord) :
    setCounts (setCounts row s) q = setCounts row q := rfl

theorem sameKey_applyRec (s row r : DataRecord) :
    sameKey (applyRec s row) r = sameKey row r := by
  unfold applyRec
  split <;> rfl

theorem applyRec_of_sameKey (r row : DataRecord) (h : sameKey row r = true) :
    applyRec r row = setCounts row r := by
  simp [applyRec, h]

theorem applyRec_of_diffKey (r row : DataRecord) (h : sameKey row r = false) :
    applyRec r row = row := by
  simp [applyRec, h]

theorem hasKey_map_applyRec (t : List DataRecord) (s r : DataRecord) :
    hasKey (t.map (applyRec s)) r = hasKey t r := by
  simp [hasKey, List.any_map, Function.comp_def, sameKey_applyRec]

theorem hasKey_append_one (t : List DataRecord) (s r : DataRecord) :
    hasKey (t ++ [s]) r = (hasKey t r || sameKey s r) := by
  simp [hasKey, List.any_append]

theorem hasKey_upsertOne_mono (t : List DataRecord) (s r : DataRecord)
    (h : hasKey t r = true) : hasKey (upsertOne t s) r = true := by
  unfold upsertOne
  split
  · rwa [hasKey_map_applyRec]
  · rw [hasKey_append_one, h, Bool.true_or]

theorem hasKey_upsertOne_self (t : List DataRecord) (r : DataRecord) :
    hasKey (upsertOne t r) r = true := by
  unfold upsertOne
  split
  · next h => rwa [hasKey_map_applyRec]
  · rw [hasKey_append_one, sameKey_refl, Bool.or_true]

theorem upsertOne_of_hasKey (t : List DataRecord) (r : DataRecord)
    (h : hasKey t r = true) : upsertOne t r = t.map (applyRec r) := by
  simp [upsertOne, h]

theorem applyBatch_cons (t : List DataRecord) (r : DataRecord)
    (d : List DataRecord) :
    applyBatch t (r :: d) = applyBatch (upsertOne t r) d := rfl

theorem applyAll_cons (r : DataRecord) (d : List DataRecord) (row : DataRecord) :
    applyAll (r :: d) row = applyAll d (applyRec r row) := rfl

/-! Where rows of an upserted table come from, and what their counts are. -/

theorem mem_upsertOne_diffKey (t : List DataRecord) (s row : DataRecord)
    (hmem : row ∈ upsertOne t s) (hk : sameKey row s = false) : row ∈ t := by
  unfold upsertOne at hmem
  split at hmem
  · rcases List.mem_map.mp hmem with ⟨row0, h0, heq⟩
    have hk0 : sameKey row0 s = false := by
      rw [← heq, sameKey_applyRec] at hk
      exact hk
    rw [applyRec_of_diffKey s row0 hk0] at heq
    rw [← heq]
    exact h0
  · rcases List.mem_append.mp hmem with h | h
    · exact h
    · exfalso
      have : row = s := by simpa using h
      rw [this, sameKey_refl] at hk
      cases hk

theorem mem_applyBatch_diffKeys (d : List DataRecord) (row : DataRecord)
    (hk : ∀ r ∈ d, sameKey row r = false) :
    ∀ t, row ∈ applyBatch t d → row ∈ t := by
  induction d with
  | nil => intro t h; exact h
  | cons s d ih =>
      intro t h
      have h1 : row ∈ upsertOne t s :=
        ih (fun r hr => hk r (List.mem_cons_of_mem _ hr)) _ h
      exact mem_upsertOne_diffKey t s row h1 (hk s (List.mem_cons_self _ _))

theorem mem_upsertOne_match_counts (t : List DataRecord) (r row : DataRecord)
    (hmem : row ∈ upsertOne t r) (hk : sameKey row r = true) :
    row.Ins = r.Ins ∧ row.Outs = r.Outs := by
  unfold upsertOne at hmem
  split at hmem
  · rcases List.mem_map.mp hmem with ⟨row0, h0, heq⟩
    by_cases hc : sameKey row0 r = true
    · rw [applyRec_of_sameKey r row0 hc] at heq
      constructor <;> (rw [← heq]; rfl)
    · have hcf : sameKey row0 r = false := by
        cases h : sameKey row0 r
        · rfl
        · exact absurd h hc
      rw [applyRec_of_diffKey r row0 hcf] at heq
      rw [← heq] at hk
      rw [hk] at hcf
      cases hcf
  · next hpres =>
    rcases List.mem_append.mp hmem with h | h
    · exact absurd (List.any_eq_true.mpr ⟨row, h, hk⟩) hpres
    · have : row = r := by simpa using h
      rw [this]
      exact ⟨rfl, rfl⟩

theorem applyAll_diffKeys (d : List DataRecord) (row : DataRecord)
    (hk : ∀ r ∈ d, sameKey row r = false) : applyAll d row = row := by
  induction d with
  | nil => rfl
  | cons s d ih =>
      rw [applyAll_cons,
          applyRec_of_diffKey s row (hk s (List.mem_cons_self _ _))]
      exact ih (fun r hr => hk r (List.mem_cons_of_mem _ hr))

theorem applyAll_setCounts (d : List DataRecord) (row s : DataRecord)
    (hk : ∃ r ∈ d, sameKey row r = true) :
    applyAll d (setCounts row s) = applyAll d row := by
  induction d with
  | nil =>
      rcases hk with ⟨r, hr, _⟩
      cases hr
  | cons q d ih =>
      rw [applyAll_cons, applyAll_cons]
      by_cases hq : sameKey row q = true
      · have h1 : sameKey (setCounts row s) q = true := by
          rw [sameKey_setCounts]; exact hq
        rw [applyRec_of_sameKey q (setCounts row s) h1,
            applyRec_of_sameKey q row hq, setCounts_setCounts]
      · have hqf : sameKey row q = false := by
          cases h : sameKey row q
          · rfl
          · exact absurd h hq
        have h1 : sameKey (setCounts row s) q = false := by
          rw [sameKey_setCounts]; exact hqf
        rw [applyRec_of_diffKey q (setCounts row s) h1,
            applyRec_of_diffKey q row hqf]
        apply ih
        rcases hk with ⟨r, hr, hkr⟩
        rcases List.mem_cons.mp hr with h | h
        · rw [h] at hkr
          rw [hkr] at hqf
          cases hqf
        · exact ⟨r, h, hkr⟩

/-! Keys only accumulate across a batch, and a second pass over a batch is a
pure per-row update. -/

theorem hasKey_applyBatch_mono (d : List DataRecord) (r : DataRecord) :
    ∀ t, hasKey t r = true → hasKey (applyBatch t d) r = true := by
  induction d with
  | nil => intro t h; exact h
  | cons s d ih =>
      intro t h
      exact ih _ (hasKey_upsertOne_mono t s r h)

theorem hasKey_applyBatch_mem (d : List DataRecord) (r : DataRecord)
    (hr : r ∈ d) : ∀ t, hasKey (applyBatch t d) r = true := by
  induction d with
  | nil => cases hr
  | cons s d ih =>
      intro t
      rcases List.mem_cons.mp hr with h | h
      · rw [applyBatch_cons, h]
        exact hasKey_applyBatch_mono d s _ (hasKey_upsertOne_self t s)
      · exact ih h _

theorem applyBatch_map (d : List DataRecord) :
    ∀ t, (∀ r ∈ d, hasKey t r = true) → applyBatch t d = t.map (applyAll d) := by
  induction d with
  | nil =>
      intro t _
      have h1 : t.map (applyAll []) = t.map id := List.map_congr_left (fun a _ => rfl)
      rw [h1, List.map_id]
      rfl
  | cons r d ih =>
      intro t h
      rw [applyBatch_cons, upsertOne_of_hasKey t r (h r (List.mem_cons_self _ _))]
      rw [ih (t.map (applyRec r)) ?_]
      · rw [List.map_map]
        rfl
      · intro s hs
        rw [hasKey_map_applyRec]
        exact h s (List.mem_cons_of_mem _ hs)

theorem applyAll_fix (d : List DataRecord) :
    ∀ t row, row ∈ applyBatch t d → applyAll d row = row := by
  induction d with
  | nil => intro t row _; rfl
  | cons r d ih =>
      intro t row h
      rw [applyBatch_cons] at h
      rw [applyAll_cons]
      by_cases hk : sameKey row r = true
      · rw [applyRec_of_sameKey r row hk]
        by_cases hd : ∃ q ∈ d, sameKey row q = true
        · rw [applyAll_setCounts d row r hd]
          exact ih _ _ h
        · have hall : ∀ q ∈ d, sameKey row q = false := by
            intro q hq
            cases hc : sameKey row q
            · rfl
            · exact absurd ⟨q, hq, hc⟩ hd
          have hrow : row ∈ upsertOne t r := mem_applyBatch_diffKeys d row hall _ h
          obtain ⟨hi, ho⟩ := mem_upsertOne_match_counts t r row hrow hk
          have hsc : setCounts row r = row := by
            cases row with
            | mk sc loc ii pe ins outs =>
              dsimp [setCounts] at hi ho ⊢
              rw [hi, ho]
          rw [hsc]
          exact applyAll_diffKeys d row hall
      · have hkf : sameKey row r = false := by
          cases hc : sameKey row r
          · rfl
          · exact absurd hc hk
        rw [applyRec_of_diffKey r row hkf]
        exact ih _ _ h

theorem applyBatch_idem (t d : List DataRecord) :
    applyBatch (applyBatch t d) d = applyBatch t d := by
  rw [applyBatch_map d (applyBatch t d) (fun r hr => hasKey_applyBatch_mem d r hr t)]
  calc (applyBatch t d).map (applyAll d)
      = (applyBatch t d).map id :=
        List.map_congr_left (fun row hrow => applyAll_fix d t row hrow)
    _ = applyBatch t d := List.map_id _

/-- C5: for every starting table state and every sequence of records,
applying the upsert batch twice via `insertData` leaves the sink table in
exactly the same state as applying it once — the second application changes
neither the row count nor any field value. -/
theorem insertData_idempotent (t d : List DataRecord) :
    insertData (insertData t d) d = insertData t d := by
  by_cases h : d.isEmpty
  · simp [insertData, h]
  · simp only [insertData, h, if_false]
    exact applyBatch_idem t d

/-- C4: when a record's composite key (SiteCode, Location, PeriodEnding)
conflicts with a stored row, the upsert keeps the row count, keeps every
row's SiteCode, Location, PeriodEnding and IsInternal, overwrites Ins and
Outs of each conflicting row with the new values, and leaves every
non-conflicting row entirely unchanged. -/
theorem upsert_conflict_frame (table : List DataRecord) (r : DataRecord)
    (h : hasKey table r = true) (i : Nat) (old : DataRecord)
    (hold : table[i]? = some old) :
    (upsertOne table r).length = table.length ∧
    ∃ nw, (upsertOne table r)[i]? = some nw ∧
      nw.SiteCode = old.SiteCode ∧ nw.Location = old.Location ∧
      nw.PeriodEnding = old.PeriodEnding ∧ nw.IsInternal = old.IsInternal ∧
      (sameKey old r = true → nw.Ins = r.Ins ∧ nw.Outs = r.Outs) ∧
      (sameKey old r = false → nw = old) := by
  rw [upsertOne_of_hasKey table r h]
  refine ⟨by simp, applyRec r old, ?_, ?_, ?_, ?_, ?_, ?_, ?_⟩
  · rw [List.getElem?_map, hold]
    rfl
  · unfold applyRec; split <;> rfl
  · unfold applyRec; split <;> rfl
  · unfold applyRec; split <;> rfl
  · unfold applyRec; split <;> rfl
  · intro hk
    rw [applyRec_of_sameKey r old hk]
    exact ⟨rfl, rfl⟩
  · intro hkf
    exact applyRec_of_diffKey r old hkf

/-- Witness for `upsert_conflict_frame`: a conflicting record with new
counts and a flipped IsInternal, upserted into a one-row table. -/
theorem upsert_conflict_frame_witness :
    hasKey [rowA] recA = true ∧ ([rowA])[0]? = some rowA ∧
    ((upsertOne [rowA] recA).length = [rowA].length ∧
     ∃ nw, (upsertOne [rowA] recA)[0]? = some nw ∧
       nw.SiteCode = rowA.SiteCode ∧ nw.Location = rowA.Location ∧
       nw.PeriodEnding = rowA.PeriodEnding ∧ nw.IsInternal = rowA.IsInternal ∧
       (sameKey rowA recA = true → nw.Ins = recA.Ins ∧ nw.Outs = recA.Outs) ∧
       (sameKey rowA recA = false → nw = rowA)) :=
  ⟨by decide, by decide,
   upsert_conflict_frame [rowA] recA (by decide) 0 rowA (by decide)⟩

/-- The token-resolution step emits either no call (token reused) or exactly
one authentication call. -/
theorem tokenStep_events (w : World) :
    (tokenStep w).1 = [] ∨ (tokenStep w).1 = [Event.authCall] := by
  unfold tokenStep
  cases hr : reusedToken w with
  | none =>
      cases w.auth1 <;> simp
  | some p =>
      cases p with
      | mk a x =>
        by_cases h : a == ""
        · cases w.auth1 <;> simp [h]
        · simp [h]

/-- C9: on the 401-recovery path the orchestrator never re-authenticates
without first waiting one second: in every run trace, every reauthCall
event is immediately preceded by the wait1s event. -/
theorem reauth_waits (w : World) : reauthPaused (runModel w).trace = true := by
  have hevs0 := tokenStep_events w
  unfold runModel
  by_cases henv : (missingKeys w.env).isEmpty
  · rw [if_pos henv]
    rcases hts : tokenStep w with ⟨evs, res⟩
    rw [hts] at hevs0
    have hevs : evs = [] ∨ evs = [Event.authCall] := by simpa using hevs0
    cases res with
    | error e => rcases hevs with h | h <;> subst h <;> rfl
    | ok p =>
      obtain ⟨tok, expiry⟩ := p
      unfold fetchPhase
      cases hf1 : w.fetch1 with
      | ok data =>
          dsimp only
          rcases hevs with h | h <;> subst h <;>
            cases hd : data.isEmpty <;> rfl
      | error e =>
          dsimp only
          cases h4 : handle401 e with
          | rethrowOriginal => rcases hevs with h | h <;> subst h <;> rfl
          | raiseTypeError => rcases hevs with h | h <;> subst h <;> rfl
          | retry =>
              cases ha2 : w.auth2 with
              | error e2 => rcases hevs with h | h <;> subst h <;> rfl
              | ok t2 =>
                  cases hf2 : w.fetch2 with
                  | ok data =>
                      dsimp only
                      rcases hevs with h | h <;> subst h <;>
                        cases hd : data.isEmpty <;> rfl
                  | error e2 => rcases hevs with h | h <;> subst h <;> rfl
  · rw [if_neg henv]
    rfl

/-- C2: if the first fetch fails with a 401 and the retried fetch also
fails (for any reason), the run performs exactly one re-authentication and
exactly one retried fetch with the same date range, terminates in the
Failed state carrying the second error, and appends no RunState entry. -/
theorem singleRetryThenFail (w : World) (e1 e2 : AxiosError) (t2 : TokenData)
    (tok : String) (expiry : Int)
    (henv : (missingKeys w.env).isEmpty = true)
    (htok : (tokenStep w).2 = Except.ok (tok, expiry))
    (hf1 : w.fetch1 = Except.error e1)
    (h401 : handle401 e1 = HandlerOutcome.retry)
    (ha2 : w.auth2 = Except.ok t2)
    (hf2 : w.fetch2 = Except.error e2) :
    (runModel w).outcome = Outcome.failure (JsError.raised e2) ∧
    (runModel w).appended = [] ∧
    (runModel w).trace.count Event.reauthCall = 1 ∧
    (runModel w).trace.filterMap fetchDates =
      [(effFrom w, effTo w), (effFrom w, effTo w)] := by
  have hevs0 := tokenStep_events w
  rcases hts : tokenStep w with ⟨evs, res⟩
  rw [hts] at hevs0 htok
  have hevs : evs = [] ∨ evs = [Event.authCall] := by simpa using hevs0
  have hres : res = Except.ok (tok, expiry) := by simpa using htok
  subst hres
  unfold runModel fetchPhase
  rw [if_pos henv, hts, hf1]
  dsimp only
  rw [h401, ha2]
  dsimp only
  rw [hf2]
  rcases hevs with h | h <;> subst h <;> exact ⟨rfl, rfl, rfl, rfl⟩

/-- Witness for `singleRetryThenFail`: a 401 on the first fetch followed by
a 500 on the retried fetch. -/
theorem singleRetryThenFail_witness :
    (missingKeys wTwoFails.env).isEmpty = true ∧
    (tokenStep wTwoFails).2 = Except.ok ("freshtok", 7200000) ∧
    wTwoFails.fetch1 = Except.error err401 ∧
    handle401 err401 = HandlerOutcome.retry ∧
    wTwoFails.auth2 = Except.ok tokB ∧
    wTwoFails.fetch2 = Except.error err500 ∧
    ((runModel wTwoFails).outcome = Outcome.failure (JsError.raised err500) ∧
     (runModel wTwoFails).appended = [] ∧
     (runModel wTwoFails).trace.count Event.reauthCall = 1 ∧
     (runModel wTwoFails).trace.filterMap fetchDates =
       [(effFrom wTwoFails, effTo wTwoFails),
        (effFrom wTwoFails, effTo wTwoFails)]) :=
  ⟨by decide, rfl, rfl, by decide, rfl, rfl,
   singleRetryThenFail wTwoFails err401 err500 tokB "freshtok" 7200000
     (by decide) rfl rfl (by decide) rfl rfl⟩

/-- C6: when the fetch returns zero records, the run performs no database
operation at all (no executeMany event, table untouched), still succeeds,
and appends exactly one RunState whose record count is 0. -/
theorem emptyFetch_noDbOps (w : World) (tok : String) (expiry : Int)
    (henv : (missingKeys w.env).isEmpty = true)
    (htok : (tokenStep w).2 = Except.ok (tok, expiry))
    (hf1 : w.fetch1 = Except.ok []) :
    (runModel w).outcome = Outcome.success ∧
    (runModel w).trace.filter isDbOp = [] ∧
    (runModel w).table = w.table ∧
    (runModel w).appended.map RunInfo.Records = [some 0] := by
  have hevs0 := tokenStep_events w
  rcases hts : tokenStep w with ⟨evs, res⟩
  rw [hts] at hevs0 htok
  have hevs : evs = [] ∨ evs = [Event.authCall] := by simpa using hevs0
  have hres : res = Except.ok (tok, expiry) := by simpa using htok
  subst hres
  unfold runModel fetchPhase
  rw [if_pos henv, hts, hf1]
  rcases hevs with h | h <;> subst h <;> exact ⟨rfl, rfl, rfl, rfl⟩

/-- Witness for `emptyFetch_noDbOps`: the baseline world fetches zero
records. -/
theorem emptyFetch_noDbOps_witness :
    (missingKeys baseWorld.env).isEmpty = true ∧
    (tokenStep baseWorld).2 = Except.ok ("freshtok", 7200000) ∧
    baseWorld.fetch1 = Except.ok [] ∧
    ((runModel baseWorld).outcome = Outcome.success ∧
     (runModel baseWorld).trace.filter isDbOp = [] ∧
     (runModel baseWorld).table = baseWorld.table ∧
     (runModel baseWorld).appended.map RunInfo.Records = [some 0]) :=
  ⟨by decide, rfl, rfl,
   emptyFetch_noDbOps baseWorld "freshtok" 7200000 (by decide) rfl rfl⟩

/-- C7 evaluated at the failing input: an axios network failure carries no
response object, so `e.isAxiosError && e.response.status == 401` raises a
TypeError inside the catch handler; the run is fatal with no
re-authentication and no retry, but the error reaching the outer catch is
the TypeError, not the original network error unchanged. -/
theorem networkError_masked_by_typeError :
    handle401 netErr = HandlerOutcome.raiseTypeError ∧
    (runModel wNetFail).outcome = Outcome.failure JsError.typeError ∧
    (runModel wNetFail).outcome ≠ Outcome.failure (JsError.raised netErr) ∧
    (runModel wNetFail).trace.count Event.reauthCall = 0 ∧
    (runModel wNetFail).trace.filterMap fetchDates =
      [("2020-01-06", "2020-01-06")] ∧
    (runModel wNetFail).appended = [] := by
  refine ⟨by decide, rfl, by decide, rfl, rfl, rfl⟩

/-- On worlds where every database and store operation succeeds, the full
model agrees with the restricted model used by the other theorems: the
restriction only collapses the failure slots of the external
collaborators, not the behaviour on their success paths. -/
theorem runModelX_agrees (w : WorldX) (prev : Option RunInfo)
    (hc : w.connectResult = Except.ok ())
    (he : w.ensureTableResult = Except.ok ())
    (hs : w.storeReadResult = Except.ok prev)
    (hm : w.executeManyResult = Except.ok ())
    (hi : w.insertLogResult = Except.ok ()) :
    runModelX w = runModel (w.toWorld prev) := by
  unfold runModelX runModel
  rw [hc, he, hs, hm, hi]
  by_cases henv : (missingKeys w.env).isEmpty
  · rw [if_pos henv,
        if_pos (show (missingKeys (WorldX.toWorld w prev).env).isEmpty = true
                  from henv)]
    dsimp only
    rcases hts : tokenStep (w.toWorld prev) with ⟨evs, res⟩
    cases res with
    | error e => rfl
    | ok p =>
      obtain ⟨tok, expiry⟩ := p
      dsimp only
      rcases hfp :
        fetchPhase (w.toWorld prev) (mkRunInfo (w.toWorld prev) tok expiry)
        with ⟨fevs, res2⟩
      cases res2 with
      | error e => rfl
      | ok pr =>
        obtain ⟨info2, data⟩ := pr
        dsimp only
        by_cases hd : data.isEmpty
        · simp [insertData, hd, List.append_assoc, WorldX.toWorld]
        · simp [insertData, hd, List.append_assoc, WorldX.toWorld]
  · rw [if_neg henv,
        if_neg (show ¬(missingKeys (WorldX.toWorld w prev).env).isEmpty = true
                  from henv)]
    rfl

/-- Every outcome of a run ends the process with exit code 0:
`process.exit()` takes no argument and `run` swallows the caught error. -/
theorem exitCode_eq_zero (o : Outcome) : exitCode o = 0 := by
  cases o <;> rfl

/-- The token step never emits an error-reporting event. -/
theorem tokenStep_no_report (w : World) :
    (tokenStep w).1.any errorReported = false := by
  rcases tokenStep_events w with h | h <;> rw [h] <;> rfl

/-- The fetch phase never emits an error-reporting event. -/
theorem fetchPhase_no_report (w : World) (info : RunInfo) :
    (fetchPhase w info).1.any errorReported = false := by
  unfold fetchPhase
  cases hf : w.fetch1 with
  | ok data => rfl
  | error e =>
      dsimp only
      cases h4 : handle401 e with
      | rethrowOriginal => rfl
      | raiseTypeError => rfl
      | retry =>
          cases ha : w.auth2 with
          | error e2 => rfl
          | ok t2 =>
              cases hf2 : w.fetch2 with
              | ok data => rfl
              | error e2 => rfl

/-- C8 (amended): every run exits with code 0, never a non-zero failure
signal. Every run that ends in the Failed state appends no RunState and
reports its error — this covers missing configuration, connection, DDL,
store-read, token, fetch, and executeMany failures. But a run-state
append failure is not a reported failure at all: when `logsDb.insert`
errors the run still ends as a success, no entry is committed, and (when
nothing else failed) nothing is ever reported. -/
theorem fatalError_reported_noAppend (w : WorldX) :
    exitCode (runModelX w).outcome = 0 ∧
    ((runModelX w).outcome ≠ Outcome.success →
      (runModelX w).appended = [] ∧
      (runModelX w).trace.any errorReported = true) ∧
    (∀ e, w.insertLogResult = Except.error e →
      (runModelX w).appended = [] ∧
      ((runModelX w).outcome = Outcome.success →
        (runModelX w).trace.any errorReported = false)) := by
  refine ⟨exitCode_eq_zero _, ?_⟩
  unfold runModelX
  by_cases henv : (missingKeys w.env).isEmpty
  · rw [if_pos henv]
    cases hc : w.connectResult with
    | error e =>
        refine ⟨fun _ => ⟨rfl, by simp [errorReported]⟩,
                fun e2 h2 => ⟨rfl, fun hs => ?_⟩⟩
        cases hs
    | ok u =>
      dsimp only
      cases he : w.ensureTableResult with
      | error e =>
          refine ⟨fun _ => ⟨rfl, by simp [errorReported]⟩,
                  fun e2 h2 => ⟨rfl, fun hs => ?_⟩⟩
          cases hs
      | ok u2 =>
        dsimp only
        cases hsr : w.storeReadResult with
        | error e =>
            refine ⟨fun _ => ⟨rfl, by simp [errorReported]⟩,
                    fun e2 h2 => ⟨rfl, fun hs => ?_⟩⟩
            cases hs
        | ok prev =>
          dsimp only
          rcases hts : tokenStep (w.toWorld prev) with ⟨evs, res⟩
          have hevs : evs.any errorReported = false := by
            have h0 := tokenStep_no_report (w.toWorld prev)
            rw [hts] at h0
            simpa using h0
          cases res with
          | error e =>
              refine ⟨fun _ => ⟨rfl, by simp [List.any_append, errorReported]⟩,
                      fun e2 h2 => ⟨rfl, fun hs => ?_⟩⟩
              cases hs
          | ok p =>
            obtain ⟨tok, expiry⟩ := p
            dsimp only
            rcases hfp :
              fetchPhase (w.toWorld prev) (mkRunInfo (w.toWorld prev) tok expiry)
              with ⟨fevs, res2⟩
            have hfevs : fevs.any errorReported = false := by
              have h0 := fetchPhase_no_report (w.toWorld prev)
                (mkRunInfo (w.toWorld prev) tok expiry)
              rw [hfp] at h0
              simpa using h0
            cases res2 with
            | error e =>
                refine ⟨fun _ => ⟨rfl, by simp [List.any_append, errorReported]⟩,
                        fun e2 h2 => ⟨rfl, fun hs => ?_⟩⟩
                cases hs
            | ok pr =>
              obtain ⟨info2, data⟩ := pr
              dsimp only
              by_cases hd : data.isEmpty
              · rw [if_pos hd]
                refine ⟨fun hne => absurd rfl hne,
                        fun e2 h2 => ⟨by simp [h2], fun _ => ?_⟩⟩
                simp [List.any_append, hevs, hfevs, errorReported]
              · rw [if_neg hd]
                cases hm : w.executeManyResult with
                | error e =>
                    refine ⟨fun _ =>
                              ⟨rfl, by simp [List.any_append, errorReported]⟩,
                            fun e2 h2 => ⟨rfl, fun hs => ?_⟩⟩
                    cases hs
                | ok u3 =>
                    refine ⟨fun hne => absurd rfl hne,
                            fun e2 h2 => ⟨by simp [h2], fun _ => ?_⟩⟩
                    simp [List.any_append, hevs, hfevs, errorReported]
  · rw [if_neg henv]
    refine ⟨fun _ => ⟨rfl, by simp [errorReported]⟩,
            fun e2 h2 => ⟨rfl, fun hs => ?_⟩⟩
    cases hs

/-- Witness for `fatalError_reported_noAppend`: a failing environment
check reports and commits nothing with exit code 0, and a failing
run-state append commits nothing, reports nothing, and still exits 0. -/
theorem fatalError_reported_noAppend_witness :
    exitCode (runModelX wNoEnvX).outcome = 0 ∧
    ((runModelX wNoEnvX).appended = [] ∧
     (runModelX wNoEnvX).trace.any errorReported = true) ∧
    exitCode (runModelX wSwallowX).outcome = 0 ∧
    (runModelX wSwallowX).appended = [] ∧
    (runModelX wSwallowX).trace.any errorReported = false :=
  ⟨(fatalError_reported_noAppend wNoEnvX).1,
   (fatalError_reported_noAppend wNoEnvX).2.1 (by decide),
   (fatalError_reported_noAppend wSwallowX).1,
   ((fatalError_reported_noAppend wSwallowX).2.2
      { message := "nedb append failed" } rfl).1,
   ((fatalError_reported_noAppend wSwallowX).2.2
      { message := "nedb append failed" } rfl).2 rfl⟩

/-- C8 counterexample: two concrete fatal runs refute the claim. With
TRAFSYS_PASSWORD missing the error is reported but the exit code is 0,
not non-zero. With a failing `logsDb.insert` the store error is not even
reported: the run ends as an apparent success with exit code 0 and no
entry committed. -/
theorem fatalExitCode_counterexample :
    (runModelX wNoEnvX).outcome = Outcome.envExit ["TRAFSYS_PASSWORD"] ∧
    exitCode (runModelX wNoEnvX).outcome = 0 ∧
    (runModelX wNoEnvX).appended = [] ∧
    (runModelX wSwallowX).outcome = Outcome.success ∧
    exitCode (runModelX wSwallowX).outcome = 0 ∧
    (runModelX wSwallowX).trace.any errorReported = false ∧
    (runModelX wSwallowX).appended = [] := by decide

/-- C1 counterexample: with the stored token expiring only 2 minutes after
now, the code REUSES the previous token and makes no authentication call,
while the claim requires a fresh token to be requested; line 41 of
script.js offsets "now" by MINUS five minutes, so the comparison is
expiry > now - 5min rather than expiry > now + 5min. -/
theorem tokenReuse_counterexample :
    tokenCheck prev2.AccessTokenExpiresAt wReuse2.nowMs = true ∧
    needFresh wReuse2 = false ∧
    tokenStep wReuse2 = ([], Except.ok ("prevtok", 120000)) :=
  ⟨by decide, by decide, rfl⟩

/-- C1 (amended): for a previous run whose stored token is non-empty, the
token is reused exactly when its recorded expiry is later than five minutes
BEFORE now — the token is treated as usable until 5 minutes after its
recorded expiry — and a fresh authentication call is made only when the
token has already been expired for more than 5 minutes. -/
theorem tokenReuse_window (w : World) (p : RunInfo)
    (hp : w.prev = some p) (hne : (p.AccessToken == "") = false) :
    (tokenCheck p.AccessTokenExpiresAt w.nowMs = true →
      tokenStep w = ([], Except.ok (p.AccessToken, p.AccessTokenExpiresAt))) ∧
    (tokenCheck p.AccessTokenExpiresAt w.nowMs = false →
      (tokenStep w).1 = [Event.authCall]) := by
  constructor
  · intro hc
    simp [tokenStep, reusedToken, hp, hc, hne]
  · intro hc
    unfold tokenStep reusedToken
    rw [hp]
    dsimp only
    rw [hc]
    cases w.auth1 <;> rfl

/-- Witness for `tokenReuse_window`: a token expiring 10 minutes ahead of
now is reused unchanged with no authentication call. -/
theorem tokenReuse_window_witness :
    wReuse10.prev = some prev10 ∧ (prev10.AccessToken == "") = false ∧
    tokenCheck prev10.AccessTokenExpiresAt wReuse10.nowMs = true ∧
    tokenStep wReuse10 = ([], Except.ok ("prevtok", 600000)) :=
  ⟨rfl, by decide, by decide,
   (tokenReuse_window wReuse10 prev10 rfl (by decide)).1 (by decide)⟩

/-- A most-recent-run result is a stored entry of maximal createdAt. -/
theorem foldl_newerRun_mem (rest : List (RunInfo × Int)) :
    ∀ e, rest.foldl newerRun e ∈ e :: rest := by
  induction rest with
  | nil => intro e; exact List.mem_cons_self _ _
  | cons x xs ih =>
      intro e
      have h := ih (newerRun e x)
      have hnx : newerRun e x = e ∨ newerRun e x = x := by
        unfold newerRun
        split
        · exact Or.inr rfl
        · exact Or.inl rfl
      show xs.foldl newerRun (newerRun e x) ∈ e :: x :: xs
      rcases List.mem_cons.mp h with h1 | h1
      · rcases hnx with h2 | h2
        · rw [h1, h2]; exact List.mem_cons_self _ _
        · rw [h1, h2]
          exact List.mem_cons_of_mem _ (List.mem_cons_self _ _)
      · exact List.mem_cons_of_mem _ (List.mem_cons_of_mem _ h1)

/-- The fold result's createdAt dominates every candidate's. -/
theorem foldl_newerRun_ge (rest : List (RunInfo × Int)) :
    ∀ e, ∀ q ∈ e :: rest, q.2 ≤ (rest.foldl newerRun e).2 := by
  induction rest with
  | nil =>
      intro e q hq
      have h : q = e := by simpa using hq
      rw [h]
      exact le_refl _
  | cons x xs ih =>
      intro e q hq
      show q.2 ≤ (xs.foldl newerRun (newerRun e x)).2
      have he : e.2 ≤ (newerRun e x).2 := by
        unfold newerRun
        split
        · next hgt => exact le_of_lt hgt
        · exact le_refl _
      have hx : x.2 ≤ (newerRun e x).2 := by
        unfold newerRun
        split
        · exact le_refl _
        · next hng => exact le_of_not_lt hng
      rcases List.mem_cons.mp hq with h1 | h1
      · rw [h1]
        exact le_trans he (ih (newerRun e x) _ (List.mem_cons_self _ _))
      · rcases List.mem_cons.mp h1 with h2 | h2
        · rw [h2]
          exact le_trans hx (ih (newerRun e x) _ (List.mem_cons_self _ _))
        · exact ih (newerRun e x) q (List.mem_cons_of_mem _ h2)

theorem mostRecentRun_some (store : List (RunInfo × Int)) (p : RunInfo)
    (h : mostRecentRun store = some p) :
    ∃ c, (p, c) ∈ store ∧ ∀ q ∈ store, q.2 ≤ c := by
  cases store with
  | nil => cases h
  | cons e rest =>
      have hp : (rest.foldl newerRun e).1 = p := Option.some.inj h
      refine ⟨(rest.foldl newerRun e).2, ?_, ?_⟩
      · rw [← hp, Prod.mk.eta]
        exact foldl_newerRun_mem rest e
      · intro q hq
        exact foldl_newerRun_ge rest e q hq

/-- C3: the previous RunState consulted is the stored entry with the
greatest createdAt, absent when the store is empty; the effective FromDate
equals the previous run's ToDate when a previous run exists (with its
date-valued, hence non-empty, ToDate) and no `--from` override is given,
and equals yesterday when no previous run exists; an explicit `--from`
always wins; and the effective ToDate is yesterday unless `--to` is
given. -/
theorem dateContinuation (store : List (RunInfo × Int)) (w : World)
    (hprev : w.prev = mostRecentRun store) :
    (store = [] → w.prev = none) ∧
    (∀ p, w.prev = some p → ∃ c, (p, c) ∈ store ∧ ∀ q ∈ store, q.2 ≤ c) ∧
    (∀ p, w.prev = some p → w.optFrom = none → (p.ToDate == "") = false →
      effFrom w = p.ToDate) ∧
    (w.prev = none → w.optFrom = none → effFrom w = w.yesterday) ∧
    (∀ f, w.optFrom = some f → effFrom w = f) ∧
    (w.optTo = none → effTo w = w.yesterday) ∧
    (∀ t, w.optTo = some t → effTo w = t) := by
  refine ⟨?_, ?_, ?_, ?_, ?_, ?_, ?_⟩
  · intro h
    rw [hprev, h]
    rfl
  · intro p hp
    rw [hprev] at hp
    exact mostRecentRun_some store p hp
  · intro p hp hfrom hne
    simp [effFrom, hfrom, hp, hne]
  · intro hp hfrom
    simp [effFrom, hfrom, hp]
  · intro f hf
    simp [effFrom, hf]
  · intro ht
    simp [effTo, ht]
  · intro t ht
    simp [effTo, ht]

/-- Witness for `dateContinuation`: on a two-entry store the entry with
the greater createdAt is consulted and its ToDate 2020-01-05 becomes the
next run's effective FromDate; the effective ToDate defaults to
yesterday. -/
theorem dateContinuation_witness :
    wStore.prev = mostRecentRun store2 ∧
    (∃ c, (prev10, c) ∈ store2 ∧ ∀ q ∈ store2, q.2 ≤ c) ∧
    effFrom wStore = "2020-01-05" ∧ effTo wStore = "2020-01-06" :=
  ⟨rfl,
   (dateContinuation store2 wStore rfl).2.1 prev10 rfl,
   (dateContinuation store2 wStore rfl).2.2.1 prev10 rfl rfl (by decide),
   (dateContinuation store2 wStore rfl).2.2.2.2.2.1 rfl⟩

/-- C10: the startup check tests only whether each required environment
variable key is bound, never whether its value is non-empty: whenever all
five keys are present, no key is reported missing and the run proceeds to
the database connection. -/
theorem checkEnv_presenceOnly (w : World)
    (h : ∀ key ∈ requiredKeys, envHasKey w.env key = true) :
    missingKeys w.env = [] ∧ Event.connect ∈ (runModel w).trace := by
  have hm : missingKeys w.env = [] := by
    unfold missingKeys
    rw [List.filter_eq_nil_iff]
    intro key hk
    rw [h key hk]
    decide
  have henv : (missingKeys w.env).isEmpty = true := by rw [hm]; rfl
  refine ⟨hm, ?_⟩
  unfold runModel
  rw [if_pos henv]
  rcases hts : tokenStep w with ⟨evs, res⟩
  cases res with
  | error e => exact List.mem_cons_self _ _
  | ok p =>
      obtain ⟨tok, expiry⟩ := p
      dsimp only
      rcases hfp : fetchPhase w (mkRunInfo w tok expiry) with ⟨fevs, res2⟩
      cases res2 with
      | error e => exact List.mem_cons_self _ _
      | ok pr =>
          obtain ⟨info2, data⟩ := pr
          exact List.mem_cons_self _ _

/-- Witness for `checkEnv_presenceOnly`: all five variables bound to the
empty string still pass the check and the run reaches the database. -/
theorem checkEnv_presenceOnly_witness :
    (∀ key ∈ requiredKeys, envHasKey wBlankEnv.env key = true) ∧
    (missingKeys wBlankEnv.env = [] ∧
     Event.connect ∈ (runModel wBlankEnv).trace) :=
  ⟨by decide, checkEnv_presenceOnly wBlankEnv (by decide)⟩

end Trafsys
